import Mathlib

/-!
Verification of the honda-cb550 charger codebase against its specification.

Analogue quantities (volts, amps, ampere-hours) are modelled as rationals;
byte values and raw register words as naturals.  Fallible code is modelled
with `Except`; the per-method object state is passed explicitly.
-/

set_option linter.unusedVariables false

namespace CB550

/-! ## src/helper/charging_profile.py -/

/-- Python runtime error raised by `charging_control.run_update`: the body
branches on the bare name `stage` while also assigning `stage = "CV"` further
down, so Python treats `stage` as a function-local variable and the first read
raises `UnboundLocalError` (every other use of the field in the class is
`self.stage`). -/
inductive PyErr where
  | unboundLocalStage
deriving DecidableEq

/-- The mutable attributes set on `charging_control` in `__init__`:
`pack_voltage = 0.0`, `charge_current = 0.0`, `charging = False`,
`stage = "CC"`.  The class constants are module-level definitions below. -/
structure ChargingState where
  pack_voltage : ℚ
  charge_current : ℚ
  charging : Bool
  stage : String
deriving DecidableEq

/-- `self.NUM_CELLS = 20`. -/
def NUM_CELLS : ℚ := 20

/-- `self.CELL_MAX_VOLTAGE = 4.2`. -/
def CELL_MAX_VOLTAGE : ℚ := 21/5

/-- `self.PACK_MAX_VOLTAGE = self.NUM_CELLS * self.CELL_MAX_VOLTAGE`.
Note the source comment annotates this line with 100.8 V, but the computed
value is 20 × 4.2 = 84.0 V. -/
def PACK_MAX_VOLTAGE : ℚ := NUM_CELLS * CELL_MAX_VOLTAGE

/-- `self.CHARGE_CURRENT_CC = 10.0`. -/
def CHARGE_CURRENT_CC : ℚ := 10

/-- `self.CHARGE_CURRENT_CUTOFF = 1.0`. -/
def CHARGE_CURRENT_CUTOFF : ℚ := 1

/-- The state produced by `charging_control.__init__`. -/
def initState : ChargingState :=
  { pack_voltage := 0, charge_current := 0, charging := false, stage := "CC" }

/-- `charging_control.run_update`, faithful to Python semantics.  When
`self.charging` is true the first executed statement of the charging branch is
`if stage == "CC"`, a read of the uninitialised local `stage`, so the call
raises before any attribute of `self` is modified; when `self.charging` is
false the branch body is skipped and the zero-initialised outputs
`(output_charge_current, output_charge_voltage) = (0.0, 0.0)` are returned.
The returned state is the object state after the call (never modified). -/
def run_update (s : ChargingState) (pack_voltage charge_current : ℚ) :
    Except PyErr (ℚ × ℚ) × ChargingState :=
  if s.charging then (Except.error PyErr.unboundLocalStage, s)
  else (Except.ok (0, 0), s)

/-- `charging_control.stop_charging`: sets `charging = False`,
`pack_voltage = 0.0`, `charge_current = 0.0`; touches nothing else. -/
def stop_charging (s : ChargingState) : ChargingState :=
  { s with charging := false, pack_voltage := 0, charge_current := 0 }

/-- `charging_control.start_charging`: sets `self.charging = True`, then calls
`self.run_update(pack_voltage, charge_current)` discarding its value; an
exception from the inner call propagates with the flag already set. -/
def start_charging (s : ChargingState) (pack_voltage charge_current : ℚ) :
    Except PyErr Unit × ChargingState :=
  let r := run_update { s with charging := true } pack_voltage charge_current
  (r.1.map fun _ => (), r.2)

/-- `run_update` with the evident local-variable slip repaired: the reads and
the write of the bare local `stage` are taken to mean `self.stage`, exactly as
in `__init__` (initialised to "CC") and nowhere else changed.  All other
statements are translated verbatim from the source: the CC branch returns
`(CHARGE_CURRENT_CC, PACK_MAX_VOLTAGE + 0.2)` and switches the stage to "CV"
when `pack_voltage >= PACK_MAX_VOLTAGE`; the CV branch returns
`(CHARGE_CURRENT_CC + 5, PACK_MAX_VOLTAGE)` unless
`charge_current <= CHARGE_CURRENT_CUTOFF`, in which case it calls
`stop_charging` and returns `(0.0, 0.0)`. -/
def run_update_fixed (s : ChargingState) (pack_voltage charge_current : ℚ) :
    (ℚ × ℚ) × ChargingState :=
  if s.charging then
    if s.stage = "CC" then
      if PACK_MAX_VOLTAGE ≤ pack_voltage then
        ((CHARGE_CURRENT_CC, PACK_MAX_VOLTAGE + 1/5), { s with stage := "CV" })
      else
        ((CHARGE_CURRENT_CC, PACK_MAX_VOLTAGE + 1/5), s)
    else if s.stage = "CV" then
      if charge_current ≤ CHARGE_CURRENT_CUTOFF then ((0, 0), stop_charging s)
      else ((CHARGE_CURRENT_CC + 5, PACK_MAX_VOLTAGE), s)
    else ((0, 0), s)
  else ((0, 0), s)

/-- `start_charging` over the slip-repaired update: the state after the call. -/
def start_charging_fixed (s : ChargingState) (pack_voltage charge_current : ℚ) :
    ChargingState :=
  (run_update_fixed { s with charging := true } pack_voltage charge_current).2

/-- Iterated faithful per-cycle updates: the list of per-call results and the
final object state. -/
def run_updates (s : ChargingState) :
    List (ℚ × ℚ) → List (Except PyErr (ℚ × ℚ)) × ChargingState
  | [] => ([], s)
  | (v, i) :: rest =>
    let r := run_update s v i
    let t := run_updates r.2 rest
    (r.1 :: t.1, t.2)

/-- Iterated slip-repaired updates. -/
def run_updates_fixed (s : ChargingState) :
    List (ℚ × ℚ) → List (ℚ × ℚ) × ChargingState
  | [] => ([], s)
  | (v, i) :: rest =>
    let r := run_update_fixed s v i
    let t := run_updates_fixed r.2 rest
    (r.1 :: t.1, t.2)

/-- States of the `charging_control` object reachable through its public
methods (slip-repaired update model), starting from `__init__`. -/
inductive ReachableCC : ChargingState → Prop where
  | init : ReachableCC initState
  | start (s : ChargingState) (v i : ℚ) :
      ReachableCC s → ReachableCC (start_charging_fixed s v i)
  | stop (s : ChargingState) :
      ReachableCC s → ReachableCC (stop_charging s)
  | update (s : ChargingState) (v i : ℚ) :
      ReachableCC s → ReachableCC ((run_update_fixed s v i).2)

/-- The slip-repaired update always returns a current in `[0, 15]` and a
voltage in `[0, 84.2]`, for every state. -/
theorem run_update_fixed_bounds (s : ChargingState) (v i : ℚ) :
    0 ≤ (run_update_fixed s v i).1.1 ∧
      (run_update_fixed s v i).1.1 ≤ CHARGE_CURRENT_CC + 5 ∧
    0 ≤ (run_update_fixed s v i).1.2 ∧
      (run_update_fixed s v i).1.2 ≤ PACK_MAX_VOLTAGE + 1/5 := by
  unfold run_update_fixed
  unfold CHARGE_CURRENT_CC PACK_MAX_VOLTAGE NUM_CELLS CELL_MAX_VOLTAGE
  split_ifs <;> norm_num [stop_charging]

/-- The two stage tags the source uses are distinct strings. -/
theorem stage_CV_ne_CC : ("CV" : String) ≠ "CC" := by decide

/-- C1 (counterexample): the state with `charging = True` and `stage = "CV"`
is reachable (start from `__init__` with an observed pack voltage at the pack
maximum), and from it the per-cycle update returns a setpoint current of
15 A, outside `[0, CHARGE_CURRENT_CC] = [0, 10]`; the claimed invariant
`setpoint_current ∈ [0, cc_current]` is false on the code. -/
theorem C1_counterexample :
    ReachableCC { pack_voltage := 0, charge_current := 0, charging := true, stage := "CV" } ∧
    (run_update_fixed
        { pack_voltage := 0, charge_current := 0, charging := true, stage := "CV" } 0 5).1.1
      = 15 ∧
    ¬ (run_update_fixed
        { pack_voltage := 0, charge_current := 0, charging := true, stage := "CV" } 0 5).1.1
      ≤ CHARGE_CURRENT_CC := by
  refine ⟨?_, ?_, ?_⟩
  · have h := ReachableCC.start initState 84 5 ReachableCC.init
    have e : start_charging_fixed initState 84 5
        = { pack_voltage := 0, charge_current := 0, charging := true, stage := "CV" } := by
      norm_num [start_charging_fixed, run_update_fixed, initState,
        PACK_MAX_VOLTAGE, NUM_CELLS, CELL_MAX_VOLTAGE]
    rwa [e] at h
  · norm_num [run_update_fixed, stage_CV_ne_CC, CHARGE_CURRENT_CC, CHARGE_CURRENT_CUTOFF]
  · norm_num [run_update_fixed, stage_CV_ne_CC, CHARGE_CURRENT_CC, CHARGE_CURRENT_CUTOFF]

/-- C1 (amended): for every reachable state of the charge controller
(slip-repaired update model) and every observed pair of inputs, the returned
setpoints satisfy `setpoint_current ∈ [0, cc_current + 5]` (the constant-voltage
taper current of the source, 15 A) and
`setpoint_voltage ∈ [0, pack_max_voltage + 0.2]`. -/
theorem C1_setpoint_bounds (s : ChargingState) (hs : ReachableCC s) (v i : ℚ) :
    0 ≤ (run_update_fixed s v i).1.1 ∧
      (run_update_fixed s v i).1.1 ≤ CHARGE_CURRENT_CC + 5 ∧
    0 ≤ (run_update_fixed s v i).1.2 ∧
      (run_update_fixed s v i).1.2 ≤ PACK_MAX_VOLTAGE + 1/5 :=
  run_update_fixed_bounds s v i

/-- C1 (witness): the amended bound instantiated at the initial state. -/
theorem C1_setpoint_bounds_witness :
    ReachableCC initState ∧
    (0 ≤ (run_update_fixed initState 0 0).1.1 ∧
      (run_update_fixed initState 0 0).1.1 ≤ CHARGE_CURRENT_CC + 5 ∧
    0 ≤ (run_update_fixed initState 0 0).1.2 ∧
      (run_update_fixed initState 0 0).1.2 ≤ PACK_MAX_VOLTAGE + 1/5) :=
  ⟨ReachableCC.init, C1_setpoint_bounds initState ReachableCC.init 0 0⟩

/-- C2 (code bug): in the constant-voltage stage with an observed pack current
of 0.9 A (cutoff 1.0 A) the faithful `run_update` raises `UnboundLocalError`
instead of stopping: it reads the uninitialised local `stage`.  The
slip-repaired update does exactly what the claim states: it returns `(0, 0)`
and moves the state to stopped (`charging = False`, via `stop_charging`). -/
theorem C2_cv_cutoff_code_bug :
    (run_update
        { pack_voltage := 0, charge_current := 0, charging := true, stage := "CV" }
        50 (9/10)).1
      = Except.error PyErr.unboundLocalStage ∧
    run_update_fixed
        { pack_voltage := 0, charge_current := 0, charging := true, stage := "CV" }
        50 (9/10)
      = ((0, 0),
         { pack_voltage := 0, charge_current := 0, charging := false, stage := "CV" }) := by
  refine ⟨rfl, ?_⟩
  norm_num [run_update_fixed, stage_CV_ne_CC, stop_charging, CHARGE_CURRENT_CUTOFF]

/-- C3: once the controller is stopped (`charging = False`, the only stopped
representation the source has: `stop_charging` clears the flag and no stage
value "Stopped" exists), every sequence of per-cycle updates without an
intervening `start_charging` returns `(0, 0)` each cycle and leaves the state
(hence the stage and the cleared flag) unchanged — in both the faithful model
and the slip-repaired model. -/
theorem C3_stopped_absorbing (s : ChargingState) (h : s.charging = false)
    (l : List (ℚ × ℚ)) :
    run_updates s l = (l.map fun _ => Except.ok (0, 0), s) ∧
    run_updates_fixed s l = (l.map fun _ => ((0 : ℚ), (0 : ℚ)), s) := by
  induction l with
  | nil => exact ⟨rfl, rfl⟩
  | cons p rest ih =>
    obtain ⟨v, i⟩ := p
    have h1 : run_update s v i = (Except.ok (0, 0), s) := by
      simp [run_update, h]
    have h2 : run_update_fixed s v i = ((0, 0), s) := by
      simp [run_update_fixed, h]
    exact ⟨by simp [run_updates, h1, ih.1], by simp [run_updates_fixed, h2, ih.2]⟩

/-- C3 (witness): two updates after stopping from the initial state. -/
theorem C3_stopped_absorbing_witness :
    (stop_charging initState).charging = false ∧
    (run_updates (stop_charging initState) [(1, 2), (3, 4)]
        = ([Except.ok (0, 0), Except.ok (0, 0)], stop_charging initState) ∧
     run_updates_fixed (stop_charging initState) [(1, 2), (3, 4)]
        = ([(0, 0), (0, 0)], stop_charging initState)) :=
  ⟨rfl, C3_stopped_absorbing (stop_charging initState) rfl [(1, 2), (3, 4)]⟩

/-- C4 (code bug): in the constant-current stage the faithful `run_update`
raises `UnboundLocalError` (uninitialised local `stage`) instead of producing
setpoints.  The slip-repaired update behaves as the claim states, with the
actual pack maximum 84.0 V (= 20 × 4.2; the source comment says 100.8 V): it
returns `(CHARGE_CURRENT_CC, PACK_MAX_VOLTAGE + 0.2) = (10, 84.2)`, switches
the stage to "CV" at an observed 84.0 V, stays in "CC" at 83.0 V, and in
general switches exactly when `pack_voltage ≥ PACK_MAX_VOLTAGE`. -/
theorem C4_cc_transition_code_bug :
    (run_update
        { pack_voltage := 0, charge_current := 0, charging := true, stage := "CC" } 84 5).1
      = Except.error PyErr.unboundLocalStage ∧
    run_update_fixed
        { pack_voltage := 0, charge_current := 0, charging := true, stage := "CC" } 84 5
      = ((10, 421/5),
         { pack_voltage := 0, charge_current := 0, charging := true, stage := "CV" }) ∧
    run_update_fixed
        { pack_voltage := 0, charge_current := 0, charging := true, stage := "CC" } 83 5
      = ((10, 421/5),
         { pack_voltage := 0, charge_current := 0, charging := true, stage := "CC" }) ∧
    ∀ v i : ℚ,
      ((run_update_fixed
          { pack_voltage := 0, charge_current := 0, charging := true, stage := "CC" } v i).2.stage
        = "CV" ↔ PACK_MAX_VOLTAGE ≤ v) := by
  refine ⟨rfl, ?_, ?_, ?_⟩
  · norm_num [run_update_fixed, PACK_MAX_VOLTAGE, NUM_CELLS, CELL_MAX_VOLTAGE,
      CHARGE_CURRENT_CC]
  · norm_num [run_update_fixed, PACK_MAX_VOLTAGE, NUM_CELLS, CELL_MAX_VOLTAGE,
      CHARGE_CURRENT_CC]
  · intro v i
    by_cases hv : PACK_MAX_VOLTAGE ≤ v
    · simp [run_update_fixed, hv]
    · simp [run_update_fixed, hv]

/-- C10: `stop_charging` rewrites exactly the charging flag (to `False`) and
the stored `pack_voltage` and `charge_current` (to 0.0), leaving `stage`
untouched; a later `start_charging` therefore runs its update from the stage
that was active when charging stopped (in the faithful model the inner update
raises before touching the state; in the slip-repaired model the update is
evaluated with the old stage), never resetting it to the initial "CC". -/
theorem C10_stop_frame (s : ChargingState) (v i : ℚ) :
    stop_charging s
      = { pack_voltage := 0, charge_current := 0, charging := false, stage := s.stage } ∧
    (start_charging (stop_charging s) v i).2
      = { pack_voltage := 0, charge_current := 0, charging := true, stage := s.stage } ∧
    start_charging_fixed (stop_charging s) v i
      = (run_update_fixed
          { pack_voltage := 0, charge_current := 0, charging := true, stage := s.stage } v i).2 :=
  ⟨rfl, rfl, rfl⟩

/-! ## src/helper/decode_ttl.py

The 140-byte telemetry frame is a list of byte values; `hex_array[i]` is
modelled as `List.getD i 0` (the claims only quantify over frames long enough
for every read to be in range). -/

/-- Python `KeyError` raised by a dict lookup on a missing status code. -/
inductive DecodeErr where
  | keyError (code : ℕ)
deriving DecidableEq

/-- `decode_pack_voltage`: big-endian 16-bit at bytes 4..5, divided by 10. -/
def decode_pack_voltage (h : List ℕ) : ℚ :=
  ((h.getD 4 0 * 2 ^ 8 + h.getD 5 0 : ℕ) : ℚ) / 10

/-- `decode_individual_cells`: twenty big-endian 16-bit words from byte 6,
each divided by 1000. -/
def decode_individual_cells (h : List ℕ) : List ℚ :=
  (List.range 20).map fun i =>
    ((h.getD (i * 2 + 6) 0 * 2 ^ 8 + h.getD (i * 2 + 7) 0 : ℕ) : ℚ) / 1000

/-- `decode_pack_current`: big-endian 16-bit at bytes 72..73, divided by 10. -/
def decode_pack_current (h : List ℕ) : ℚ :=
  ((h.getD 72 0 * 2 ^ 8 + h.getD 73 0 : ℕ) : ℚ) / 10

/-- `decode_soc`: raw byte 74. -/
def decode_soc (h : List ℕ) : ℕ := h.getD 74 0

/-- `decode_MOS_temp`: big-endian 16-bit at bytes 91..92, raw. -/
def decode_MOS_temp (h : List ℕ) : ℕ := h.getD 91 0 * 2 ^ 8 + h.getD 92 0

/-- `decode_balance_temp`: big-endian 16-bit at bytes 93..94, raw. -/
def decode_balance_temp (h : List ℕ) : ℕ := h.getD 93 0 * 2 ^ 8 + h.getD 94 0

/-- `decode_external_temps`: four big-endian 16-bit words from byte 95, raw. -/
def decode_external_temps (h : List ℕ) : List ℕ :=
  (List.range 4).map fun i => h.getD (i * 2 + 95) 0 * 2 ^ 8 + h.getD (i * 2 + 96) 0

/-- `decode_physical_capacity`: takes the slice `hex_array[75:79]`, reverses
it, names the reversed bytes `byte0..byte3` and combines them with `byte0` as
least significant; the net value is therefore the big-endian reading of bytes
75..78.  Scaled by 0.000001 to ampere-hours. -/
def decode_physical_capacity (h : List ℕ) : ℚ :=
  let byte_array := ((h.drop 75).take 4).reverse
  let byte0 := byte_array.getD 0 0
  let byte1 := byte_array.getD 1 0
  let byte2 := byte_array.getD 2 0
  let byte3 := byte_array.getD 3 0
  ((byte3 * 256 ^ 3 + byte2 * 256 ^ 2 + byte1 * 256 + byte0 : ℕ) : ℚ) * (1 / 1000000)

/-- `decode_remaining_capacity`: same combination over `hex_array[79:83]`. -/
def decode_remaining_capacity (h : List ℕ) : ℚ :=
  let byte_array := ((h.drop 79).take 4).reverse
  let byte0 := byte_array.getD 0 0
  let byte1 := byte_array.getD 1 0
  let byte2 := byte_array.getD 2 0
  let byte3 := byte_array.getD 3 0
  ((byte3 * 256 ^ 3 + byte2 * 256 ^ 2 + byte1 * 256 + byte0 : ℕ) : ℚ) * (1 / 1000000)

/-- `decode_cyclic_capcity` (source spelling): same combination over
`hex_array[83:87]`. -/
def decode_cyclic_capcity (h : List ℕ) : ℚ :=
  let byte_array := ((h.drop 83).take 4).reverse
  let byte0 := byte_array.getD 0 0
  let byte1 := byte_array.getD 1 0
  let byte2 := byte_array.getD 2 0
  let byte3 := byte_array.getD 3 0
  ((byte3 * 256 ^ 3 + byte2 * 256 ^ 2 + byte1 * 256 + byte0 : ℕ) : ℚ) * (1 / 1000000)

/-- The `charging_mos_status` dict literal: keys 0..22. -/
def charging_mos_status_dict : ℕ → Option String
  | 0 => some "Close"
  | 1 => some "Open"
  | 2 => some "Overvoltage of the single cell"
  | 3 => some "Over current"
  | 4 => some "Secondary overcurrent"
  | 5 => some "The total voltage is overvoltage"
  | 6 => some "Battery over-temperature"
  | 7 => some "Power over-temperature"
  | 8 => some "Current anomaly"
  | 9 => some "Balance line Disconnect"
  | 10 => some "mainboard over-temperature"
  | 11 => some ""
  | 12 => some "Failed to open"
  | 13 => some "Charging MOS Error"
  | 14 => some "waiting"
  | 15 => some "Manual close"
  | 16 => some "Secondary overvoltage"
  | 17 => some "Low-temperature protection"
  | 18 => some "Differential voltage protection"
  | 19 => some ""
  | 20 => some ""
  | 21 => some ""
  | 22 => some "Total voltage single cell abnormality"
  | _ => none

/-- The `discharge_mos_state` dict literal: keys 0..22. -/
def discharge_mos_state_dict : ℕ → Option String
  | 0 => some "Close"
  | 1 => some "Open"
  | 2 => some "Under-voltage of the single cell"
  | 3 => some "Over current"
  | 4 => some "Secondary overcurrent"
  | 5 => some "The total voltage is under-voltage"
  | 6 => some "Battery over-temperature"
  | 7 => some "Power over-temperature"
  | 8 => some "Current anomaly"
  | 9 => some "Balance line Disconnect"
  | 10 => some "mainboard over-temperature"
  | 11 => some ""
  | 12 => some "Short circuit protection"
  | 13 => some "Discharge MOS Error"
  | 14 => some "Failed to open"
  | 15 => some "Manual close"
  | 16 => some "Under-voltage at level 2"
  | 17 => some "Low-temperature protection"
  | 18 => some "Differential voltage protection"
  | 19 => some ""
  | 20 => some ""
  | 21 => some ""
  | 22 => some "Total voltage single cell abnormality"
  | _ => none

/-- The `balance_state` dict literal: keys 0, 1, 2, 3, 4, 10. -/
def balance_state_dict : ℕ → Option String
  | 0 => some "Close"
  | 1 => some "Balance limit"
  | 2 => some "Differential voltage Balance"
  | 3 => some "Balance over-temperature"
  | 4 => some "Auto Balance"
  | 10 => some "mainboard over-temperature"
  | _ => none

/-- `decode_charging_mos_status`: dict lookup on byte 103; a missing key is a
`KeyError`. -/
def decode_charging_mos_status (h : List ℕ) : Except DecodeErr (String × ℕ) :=
  let status := h.getD 103 0
  match charging_mos_status_dict status with
  | some txt => Except.ok (txt, status)
  | none => Except.error (DecodeErr.keyError status)

/-- `decode_discharge_mos_status`: dict lookup on byte 104. -/
def decode_discharge_mos_status (h : List ℕ) : Except DecodeErr (String × ℕ) :=
  let status := h.getD 104 0
  match discharge_mos_state_dict status with
  | some txt => Except.ok (txt, status)
  | none => Except.error (DecodeErr.keyError status)

/-- `decode_balance_status`: dict lookup on byte 105. -/
def decode_balance_status (h : List ℕ) : Except DecodeErr (String × ℕ) :=
  let status := h.getD 105 0
  match balance_state_dict status with
  | some txt => Except.ok (txt, status)
  | none => Except.error (DecodeErr.keyError status)

/-- `decode_high_cell_voltage`: cell index byte 115, voltage bytes 116..117
divided by 1000. -/
def decode_high_cell_voltage (h : List ℕ) : ℕ × ℚ :=
  (h.getD 115 0, ((h.getD 116 0 * 2 ^ 8 + h.getD 117 0 : ℕ) : ℚ) / 1000)

/-- `decode_low_cell_voltage`: cell index byte 118, voltage bytes 119..120
divided by 1000. -/
def decode_low_cell_voltage (h : List ℕ) : ℕ × ℚ :=
  (h.getD 118 0, ((h.getD 119 0 * 2 ^ 8 + h.getD 120 0 : ℕ) : ℚ) / 1000)

/-- A status sub-dictionary of the returned snapshot (`codes` plus
`descriptions`, the source key names). -/
structure StatusField where
  codes : ℕ
  descriptions : String
deriving DecidableEq

/-- A high/low cell entry of the returned snapshot. -/
structure CellExtreme where
  cell_number : ℕ
  voltage : ℚ
deriving DecidableEq

/-- The dict returned by `convert_full_msg`, with the source key names. -/
structure BmsSnapshot where
  pack_voltage : ℚ
  pack_current : ℚ
  soc : ℕ
  individual_cells : List ℚ
  mos_temperature : ℕ
  balance_temperature : ℕ
  external_temperatures : List ℕ
  physical_capacity_ah : ℚ
  remaining_capacity_ah : ℚ
  cyclic_capacity_ah : ℚ
  discharge_mos_status : StatusField
  charge_mos_status : StatusField
  balance_status : StatusField
  high_cell : CellExtreme
  low_cell : CellExtreme
deriving DecidableEq

/-- `convert_full_msg`: decodes every field of the frame; the three status
lookups run in source order (discharge, charge, balance) and a `KeyError`
raised by any of them propagates, so no snapshot is produced. -/
def convert_full_msg (h : List ℕ) : Except DecodeErr BmsSnapshot :=
  match decode_discharge_mos_status h with
  | Except.error e => Except.error e
  | Except.ok d =>
  match decode_charging_mos_status h with
  | Except.error e => Except.error e
  | Except.ok c =>
  match decode_balance_status h with
  | Except.error e => Except.error e
  | Except.ok b =>
  Except.ok
    { pack_voltage := decode_pack_voltage h
      pack_current := decode_pack_current h
      soc := decode_soc h
      individual_cells := decode_individual_cells h
      mos_temperature := decode_MOS_temp h
      balance_temperature := decode_balance_temp h
      external_temperatures := decode_external_temps h
      physical_capacity_ah := decode_physical_capacity h
      remaining_capacity_ah := decode_remaining_capacity h
      cyclic_capacity_ah := decode_cyclic_capcity h
      discharge_mos_status := { codes := d.2, descriptions := d.1 }
      charge_mos_status := { codes := c.2, descriptions := c.1 }
      balance_status := { codes := b.2, descriptions := b.1 }
      high_cell :=
        { cell_number := (decode_high_cell_voltage h).1
          voltage := (decode_high_cell_voltage h).2 }
      low_cell :=
        { cell_number := (decode_low_cell_voltage h).1
          voltage := (decode_low_cell_voltage h).2 } }

/-- The unsigned 32-bit little-endian integer formed from bytes `o..o+3`
(byte `o` least significant) — the reading the claim asserts. -/
def le32 (h : List ℕ) (o : ℕ) : ℕ :=
  h.getD o 0 + h.getD (o + 1) 0 * 256 + h.getD (o + 2) 0 * 256 ^ 2 +
    h.getD (o + 3) 0 * 256 ^ 3

/-- The unsigned 32-bit big-endian integer formed from bytes `o..o+3`
(byte `o` most significant) — the reading the source implements. -/
def be32 (h : List ℕ) (o : ℕ) : ℕ :=
  h.getD o 0 * 256 ^ 3 + h.getD (o + 1) 0 * 256 ^ 2 + h.getD (o + 2) 0 * 256 +
    h.getD (o + 3) 0

/-- A 140-byte frame whose bytes 75..78 are `01 00 00 00` and every other
byte zero. -/
def frame140 : List ℕ := List.replicate 75 0 ++ [1, 0, 0, 0] ++ List.replicate 61 0

/-- Four consecutive in-range bytes of a frame, as an explicit list. -/
theorem slice4 (h : List ℕ) (o : ℕ) (ho : o + 4 ≤ h.length) :
    (h.drop o).take 4 = [h.getD o 0, h.getD (o + 1) 0, h.getD (o + 2) 0, h.getD (o + 3) 0] := by
  have h0 : o < h.length := by omega
  have h1 : o + 1 < h.length := by omega
  have h2 : o + 2 < h.length := by omega
  have h3 : o + 3 < h.length := by omega
  rw [List.drop_eq_getElem_cons h0, List.drop_eq_getElem_cons h1,
    List.drop_eq_getElem_cons h2, List.drop_eq_getElem_cons h3,
    List.getD_eq_getElem h 0 h0, List.getD_eq_getElem h 0 h1,
    List.getD_eq_getElem h 0 h2, List.getD_eq_getElem h 0 h3]
  rfl

/-- C5 (counterexample): on the 140-byte frame whose bytes 75..78 are
`01 00 00 00`, the decoder yields 2^24 × 1e-6 Ah — the big-endian reading of
the field — not the claimed little-endian value 1 × 1e-6 Ah. -/
theorem C5_counterexample :
    frame140.length = 140 ∧
    decode_physical_capacity frame140 = 16777216 / 1000000 ∧
    (le32 frame140 75 : ℚ) * (1 / 1000000) = 1 / 1000000 ∧
    decode_physical_capacity frame140 ≠ (le32 frame140 75 : ℚ) * (1 / 1000000) := by
  have n1 : ((frame140.drop 75).take 4).reverse = [0, 0, 0, 1] := rfl
  have n2 : le32 frame140 75 = 1 := rfl
  have e1 : decode_physical_capacity frame140 = 16777216 / 1000000 := by
    unfold decode_physical_capacity
    rw [n1]
    norm_num
  have e2 : (le32 frame140 75 : ℚ) * (1 / 1000000) = 1 / 1000000 := by
    rw [n2]
    norm_num
  refine ⟨rfl, e1, e2, ?_⟩
  rw [e1, e2]
  norm_num

/-- C5 (amended): for every 140-byte telemetry frame the decoded
physical / remaining / cyclic capacities equal the unsigned 32-bit
**big-endian** integers formed from bytes 75..78 / 79..82 / 83..86 (first byte
most significant), each multiplied by 1e-6 Ah. -/
theorem C5_capacities_big_endian (h : List ℕ) (hl : h.length = 140) :
    decode_physical_capacity h = (be32 h 75 : ℚ) * (1 / 1000000) ∧
    decode_remaining_capacity h = (be32 h 79 : ℚ) * (1 / 1000000) ∧
    decode_cyclic_capcity h = (be32 h 83 : ℚ) * (1 / 1000000) := by
  refine ⟨?_, ?_, ?_⟩
  · unfold decode_physical_capacity
    rw [slice4 h 75 (by omega)]
    simp [be32]
  · unfold decode_remaining_capacity
    rw [slice4 h 79 (by omega)]
    simp [be32]
  · unfold decode_cyclic_capcity
    rw [slice4 h 83 (by omega)]
    simp [be32]

/-- C5 (witness): the amended statement at the concrete frame. -/
theorem C5_capacities_big_endian_witness :
    frame140.length = 140 ∧
    (decode_physical_capacity frame140 = (be32 frame140 75 : ℚ) * (1 / 1000000) ∧
     decode_remaining_capacity frame140 = (be32 frame140 79 : ℚ) * (1 / 1000000) ∧
     decode_cyclic_capcity frame140 = (be32 frame140 83 : ℚ) * (1 / 1000000)) :=
  ⟨rfl, C5_capacities_big_endian frame140 rfl⟩

/-- Codes above 22 are absent from the charge-MOS dict. -/
theorem charging_mos_status_dict_none (s : ℕ) (hs : 22 < s) :
    charging_mos_status_dict s = none := by
  obtain ⟨n, rfl⟩ : ∃ n, s = n + 23 := ⟨s - 23, by omega⟩
  rfl

/-- Codes above 22 are absent from the discharge-MOS dict. -/
theorem discharge_mos_state_dict_none (s : ℕ) (hs : 22 < s) :
    discharge_mos_state_dict s = none := by
  obtain ⟨n, rfl⟩ : ∃ n, s = n + 23 := ⟨s - 23, by omega⟩
  rfl

/-- Codes outside {0, 1, 2, 3, 4, 10} are absent from the balance dict. -/
theorem balance_state_dict_none (s : ℕ) (hs : s ∉ ([0, 1, 2, 3, 4, 10] : List ℕ)) :
    balance_state_dict s = none := by
  simp only [List.mem_cons, List.not_mem_nil, or_false, not_or] at hs
  obtain ⟨h0, h1, h2, h3, h4, h10⟩ := hs
  by_cases hle : s ≤ 10
  · interval_cases s <;> simp_all [balance_state_dict]
  · obtain ⟨n, rfl⟩ : ∃ n, s = n + 11 := ⟨s - 11, by omega⟩
    rfl

/-- A charge-MOS byte above 22 makes `decode_charging_mos_status` raise. -/
theorem decode_charging_mos_status_bad (h : List ℕ) (hs : 22 < h.getD 103 0) :
    decode_charging_mos_status h = Except.error (DecodeErr.keyError (h.getD 103 0)) := by
  simp only [decode_charging_mos_status]
  rw [charging_mos_status_dict_none _ hs]

/-- A discharge-MOS byte above 22 makes `decode_discharge_mos_status` raise. -/
theorem decode_discharge_mos_status_bad (h : List ℕ) (hs : 22 < h.getD 104 0) :
    decode_discharge_mos_status h = Except.error (DecodeErr.keyError (h.getD 104 0)) := by
  simp only [decode_discharge_mos_status]
  rw [discharge_mos_state_dict_none _ hs]

/-- A balance byte outside the table makes `decode_balance_status` raise. -/
theorem decode_balance_status_bad (h : List ℕ)
    (hs : h.getD 105 0 ∉ ([0, 1, 2, 3, 4, 10] : List ℕ)) :
    decode_balance_status h = Except.error (DecodeErr.keyError (h.getD 105 0)) := by
  simp only [decode_balance_status]
  rw [balance_state_dict_none _ hs]

/-- C6: decoding a 140-byte frame whose charge-MOS byte 103 is outside 0..22,
or whose discharge-MOS byte 104 is outside 0..22, or whose balance byte 105 is
outside {0, 1, 2, 3, 4, 10}, fails with a `KeyError` carrying an unknown
status code and produces no snapshot — no default is substituted. -/
theorem C6_unknown_status_fails (h : List ℕ) (hl : h.length = 140)
    (hbad : 22 < h.getD 103 0 ∨ 22 < h.getD 104 0 ∨
      h.getD 105 0 ∉ ([0, 1, 2, 3, 4, 10] : List ℕ)) :
    ∃ code, convert_full_msg h = Except.error (DecodeErr.keyError code) := by
  rcases hbad with h1 | h2 | h3
  · rcases hd : decode_discharge_mos_status h with e | d
    · obtain ⟨code⟩ := e
      exact ⟨code, by simp [convert_full_msg, hd, Except.bind]⟩
    · exact ⟨h.getD 103 0,
        by simp [convert_full_msg, hd, decode_charging_mos_status_bad h h1, Except.bind]⟩
  · exact ⟨h.getD 104 0,
      by simp [convert_full_msg, decode_discharge_mos_status_bad h h2, Except.bind]⟩
  · rcases hd : decode_discharge_mos_status h with e | d
    · obtain ⟨code⟩ := e
      exact ⟨code, by simp [convert_full_msg, hd, Except.bind]⟩
    · rcases hc : decode_charging_mos_status h with e | c
      · obtain ⟨code⟩ := e
        exact ⟨code, by simp [convert_full_msg, hd, hc, Except.bind]⟩
      · exact ⟨h.getD 105 0,
          by simp [convert_full_msg, hd, hc, decode_balance_status_bad h h3, Except.bind]⟩

/-- A 140-byte frame whose charge-MOS byte 103 is 23 (unknown code) and every
other byte zero. -/
def badStatusFrame : List ℕ := List.replicate 103 0 ++ [23] ++ List.replicate 36 0

/-- C6 (witness): the concrete frame with charge-MOS code 23 fails. -/
theorem C6_unknown_status_fails_witness :
    badStatusFrame.length = 140 ∧ 22 < badStatusFrame.getD 103 0 ∧
    ∃ code, convert_full_msg badStatusFrame = Except.error (DecodeErr.keyError code) :=
  ⟨rfl, by decide, C6_unknown_status_fails badStatusFrame rfl (Or.inl (by decide))⟩

/-! ## src/helper/remap_pdos.py

`remap_rpdo` issues a sequence of expedited SDO downloads through the canopen
stack (`node.sdo[idx][sub].raw = value`).  The device is modelled by an abort
oracle `aborts : ℕ → Bool`: `aborts k = true` means the k-th download of the
remap (0-based) is answered with an SDO abort, in which case
`SdoAbortedError` propagates out of the assignment.  A run records the
downloads issued (the last one possibly aborted), the downloads that took
effect on the device, and the Python-level result. -/

/-- One expedited SDO download: object index, subindex, value written. -/
structure SdoWrite where
  index : ℕ
  subindex : ℕ
  value : ℕ
deriving DecidableEq

/-- Failure of a remap: an `SdoAbortedError` from the stack, or the
`ValueError` raised when the cumulative mapped bits exceed 64. -/
inductive RemapErr where
  | sdoAbort
  | valueError
deriving DecidableEq

/-- `map_entry`: `(index << 16) | (subindex << 8) | (bitlen & 0xFF)`. -/
def map_entry (index subindex bitlen : ℕ) : ℕ :=
  (index <<< 16) ||| (subindex <<< 8) ||| (bitlen &&& 0xFF)

/-- Result of one remap attempt. -/
structure RemapRun where
  issued : List SdoWrite
  applied : List SdoWrite
  result : Except RemapErr Unit

/-- The `for i, (idx, sub, blen) in enumerate(entries, start=1)` loop of
`remap_rpdo`: before writing entry `i` it adds `blen` to `total_bits` and
raises `ValueError` if the total exceeds 64; otherwise it downloads
`map_entry idx sub blen` to `map_idx:i`.  Arguments: remaining entries,
subindex counter `i`, download counter `k`, accumulated `total_bits`, and the
issued/applied writes so far. -/
def entryLoop (aborts : ℕ → Bool) (map_idx : ℕ) :
    List (ℕ × ℕ × ℕ) → ℕ → ℕ → ℕ → List SdoWrite → List SdoWrite →
    List SdoWrite × List SdoWrite × ℕ × Except RemapErr Unit
  | [], _, k, _, issued, applied => (issued, applied, k, Except.ok ())
  | (idx, sub, blen) :: rest, i, k, total, issued, applied =>
    if 64 < total + blen then (issued, applied, k, Except.error RemapErr.valueError)
    else
      let w : SdoWrite := ⟨map_idx, i, map_entry idx sub blen⟩
      if aborts k then (issued ++ [w], applied, k + 1, Except.error RemapErr.sdoAbort)
      else entryLoop aborts map_idx rest (i + 1) (k + 1) (total + blen)
        (issued ++ [w]) (applied ++ [w])

/-- `remap_rpdo`: disable the PDO (COB-ID with bit 31 set), write the
transmission type, zero the mapping count, write the mapping entries, write
the final count, re-enable (COB-ID as given).  An abort at any download stops
the sequence there; the overflow check stops it before the offending entry. -/
def remap_rpdo (rpdo_number cobid tx_type : ℕ) (entries : List (ℕ × ℕ × ℕ))
    (aborts : ℕ → Bool) : RemapRun :=
  let comm_idx := 0x1400 + rpdo_number
  let map_idx := 0x1600 + rpdo_number
  let w1 : SdoWrite := ⟨comm_idx, 1, cobid ||| 0x80000000⟩
  if aborts 0 then ⟨[w1], [], Except.error RemapErr.sdoAbort⟩ else
  let w2 : SdoWrite := ⟨comm_idx, 2, tx_type⟩
  if aborts 1 then ⟨[w1, w2], [w1], Except.error RemapErr.sdoAbort⟩ else
  let w3 : SdoWrite := ⟨map_idx, 0, 0⟩
  if aborts 2 then ⟨[w1, w2, w3], [w1, w2], Except.error RemapErr.sdoAbort⟩ else
  match entryLoop aborts map_idx entries 1 3 0 [w1, w2, w3] [w1, w2, w3] with
  | (issued, applied, _, Except.error e) => ⟨issued, applied, Except.error e⟩
  | (issued, applied, k, Except.ok ()) =>
    let w5 : SdoWrite := ⟨map_idx, 0, entries.length⟩
    if aborts k then ⟨issued ++ [w5], applied, Except.error RemapErr.sdoAbort⟩ else
    let w6 : SdoWrite := ⟨comm_idx, 1, cobid⟩
    if aborts (k + 1) then
      ⟨issued ++ [w5, w6], applied ++ [w5], Except.error RemapErr.sdoAbort⟩
    else ⟨issued ++ [w5, w6], applied ++ [w5, w6], Except.ok ()⟩

/-- The mapping-entry downloads, entry j written to subindex `i + j`. -/
def entryWrites (map_idx : ℕ) : ℕ → List (ℕ × ℕ × ℕ) → List SdoWrite
  | _, [] => []
  | i, (idx, sub, blen) :: rest =>
    ⟨map_idx, i, map_entry idx sub blen⟩ :: entryWrites map_idx (i + 1) rest

/-- The download sequence the claim describes: (1) COB-ID with bit 31 set,
(2) transmission type, (3) mapping count zero, (4) each mapping entry in field
order, (5) the final mapping count, (6) the COB-ID with bit 31 clear. -/
def plannedWrites (rpdo_number cobid tx_type : ℕ)
    (entries : List (ℕ × ℕ × ℕ)) : List SdoWrite :=
  ⟨0x1400 + rpdo_number, 1, cobid ||| 0x80000000⟩ ::
  ⟨0x1400 + rpdo_number, 2, tx_type⟩ ::
  ⟨0x1600 + rpdo_number, 0, 0⟩ ::
  (entryWrites (0x1600 + rpdo_number) 1 entries ++
    [⟨0x1600 + rpdo_number, 0, entries.length⟩, ⟨0x1400 + rpdo_number, 1, cobid⟩])

/-- Total mapped bits of an entry list. -/
def bitsSum (entries : List (ℕ × ℕ × ℕ)) : ℕ := (entries.map fun e => e.2.2).sum

/-- `RPDO1_ENTRIES` of the source: SOC (8 bits), voltage request (32),
battery current (16), battery status (8). -/
def RPDO1_ENTRIES : List (ℕ × ℕ × ℕ) :=
  [(0x6081, 0x00, 8), (0x2271, 0x00, 32), (0x6070, 0x00, 16), (0x6000, 0x00, 8)]

/-- `RPDO2_ENTRIES` of the source: battery voltage (32), temperature (16),
battery current (16). -/
def RPDO2_ENTRIES : List (ℕ × ℕ × ℕ) :=
  [(0x6060, 0x00, 32), (0x6010, 0x00, 16), (0x6070, 0x00, 16)]

/-- With no aborts and the bit budget respected, the entry loop issues and
applies exactly the mapping-entry downloads in order. -/
theorem entryLoop_no_abort (map_idx : ℕ) (aborts : ℕ → Bool)
    (hab : ∀ k, aborts k = false) :
    ∀ (entries : List (ℕ × ℕ × ℕ)) (i k total : ℕ) (issued applied : List SdoWrite),
      total + bitsSum entries ≤ 64 →
      entryLoop aborts map_idx entries i k total issued applied
        = (issued ++ entryWrites map_idx i entries,
           applied ++ entryWrites map_idx i entries,
           k + entries.length, Except.ok ()) := by
  intro entries
  induction entries with
  | nil => intro i k total issued applied hb; simp [entryLoop, entryWrites]
  | cons e rest ih =>
    obtain ⟨idx, sub, blen⟩ := e
    intro i k total issued applied hb
    have hsum : bitsSum ((idx, sub, blen) :: rest) = blen + bitsSum rest := by
      simp [bitsSum]
    have h1 : ¬ 64 < total + blen := by omega
    rw [entryLoop, if_neg h1]
    simp only [hab k, Bool.false_eq_true, if_neg, if_false]
    rw [ih (i + 1) (k + 1) (total + blen) _ _ (by omega)]
    simp [entryWrites, List.append_assoc]
    omega

/-- Whatever happens, the entry loop extends the issued and applied lists by
initial segments of the mapping-entry downloads (the applied one no longer
than the issued one), and on success it appends them whole. -/
theorem entryLoop_parts (map_idx : ℕ) (aborts : ℕ → Bool) :
    ∀ (entries : List (ℕ × ℕ × ℕ)) (i k total : ℕ) (issued applied : List SdoWrite),
      ∃ m n, n ≤ m ∧
        (entryLoop aborts map_idx entries i k total issued applied).1
          = issued ++ (entryWrites map_idx i entries).take m ∧
        (entryLoop aborts map_idx entries i k total issued applied).2.1
          = applied ++ (entryWrites map_idx i entries).take n ∧
        ((entryLoop aborts map_idx entries i k total issued applied).2.2.2
            = Except.ok () →
          (entryLoop aborts map_idx entries i k total issued applied).1
              = issued ++ entryWrites map_idx i entries ∧
            (entryLoop aborts map_idx entries i k total issued applied).2.1
              = applied ++ entryWrites map_idx i entries) := by
  intro entries
  induction entries with
  | nil =>
    intro i k total issued applied
    exact ⟨0, 0, le_refl 0, by simp [entryLoop, entryWrites], by simp [entryLoop, entryWrites],
      fun _ => ⟨by simp [entryLoop, entryWrites], by simp [entryLoop, entryWrites]⟩⟩
  | cons e rest ih =>
    obtain ⟨idx, sub, blen⟩ := e
    intro i k total issued applied
    by_cases hov : 64 < total + blen
    · refine ⟨0, 0, le_refl 0, ?_, ?_, ?_⟩ <;> rw [entryLoop, if_pos hov] <;> simp
    · by_cases hab : aborts k = true
      · refine ⟨1, 0, by omega, ?_, ?_, ?_⟩ <;>
          rw [entryLoop, if_neg hov] <;> simp [hab, entryWrites]
      · have hab2 : aborts k = false := by
          cases h : aborts k
          · rfl
          · exact absurd h hab
        obtain ⟨m, n, hmn, h1, h2, h3⟩ :=
          ih (i + 1) (k + 1) (total + blen) (issued ++ [⟨map_idx, i, map_entry idx sub blen⟩])
            (applied ++ [⟨map_idx, i, map_entry idx sub blen⟩])
        have hred : entryLoop aborts map_idx ((idx, sub, blen) :: rest) i k total issued applied
            = entryLoop aborts map_idx rest (i + 1) (k + 1) (total + blen)
              (issued ++ [⟨map_idx, i, map_entry idx sub blen⟩])
              (applied ++ [⟨map_idx, i, map_entry idx sub blen⟩]) := by
          rw [entryLoop, if_neg hov]
          simp [hab2]
        refine ⟨m + 1, n + 1, by omega, ?_, ?_, ?_⟩
        · rw [hred, h1]
          simp [entryWrites, List.append_assoc]
        · rw [hred, h2]
          simp [entryWrites, List.append_assoc]
        · intro hok
          rw [hred] at hok ⊢
          obtain ⟨g1, g2⟩ := h3 hok
          rw [g1, g2]
          simp [entryWrites, List.append_assoc]

/-- Setting bit 31 changes a COB-ID that has it clear. -/
theorem disable_ne (cobid : ℕ) (hc : cobid < 2 ^ 31) :
    cobid ||| 0x80000000 ≠ cobid := by
  intro h
  have h1 : (cobid ||| 0x80000000).testBit 31 = true := by
    rw [Nat.testBit_or]
    have e : (0x80000000 : ℕ) = 2 ^ 31 := by norm_num
    rw [e, Nat.testBit_two_pow_self]
    simp
  have h2 : cobid.testBit 31 = false := Nat.testBit_lt_two_pow hc
  rw [h, h2] at h1
  exact Bool.false_ne_true h1

/-- The re-enable download is not a mapping-entry download. -/
theorem enable_not_mem_entryWrites (rpdo_number cobid : ℕ) :
    ∀ (entries : List (ℕ × ℕ × ℕ)) (i : ℕ),
      (⟨0x1400 + rpdo_number, 1, cobid⟩ : SdoWrite)
        ∉ entryWrites (0x1600 + rpdo_number) i entries := by
  intro entries
  induction entries with
  | nil => intro i; simp [entryWrites]
  | cons e rest ih =>
    obtain ⟨idx, sub, blen⟩ := e
    intro i
    simp only [entryWrites, List.mem_cons, not_or]
    refine ⟨?_, ih (i + 1)⟩
    intro h
    have hv := congrArg SdoWrite.index h
    dsimp only at hv
    omega

/-- The re-enable download appears nowhere among the downloads a failed remap
has applied: not among the three header downloads, not among the mapping
entries, and not among further downloads aimed at the mapping index. -/
theorem enable_not_mem_parts (rpdo_number cobid tx_type : ℕ) (hc : cobid < 2 ^ 31)
    (entries : List (ℕ × ℕ × ℕ)) (n : ℕ) (extra : List SdoWrite)
    (hextra : ∀ w ∈ extra, w.index = 0x1600 + rpdo_number) :
    (⟨0x1400 + rpdo_number, 1, cobid⟩ : SdoWrite)
      ∉ ([⟨0x1400 + rpdo_number, 1, cobid ||| 0x80000000⟩,
          ⟨0x1400 + rpdo_number, 2, tx_type⟩,
          ⟨0x1600 + rpdo_number, 0, 0⟩] ++
         (entryWrites (0x1600 + rpdo_number) 1 entries).take n ++ extra) := by
  intro hmem
  simp only [List.append_assoc, List.mem_append, List.mem_cons, List.not_mem_nil,
    or_false] at hmem
  rcases hmem with (h | h | h) | h | h
  · have hv := congrArg SdoWrite.value h
    dsimp only at hv
    exact disable_ne cobid hc hv.symm
  · have hv := congrArg SdoWrite.subindex h
    dsimp only at hv
    omega
  · have hv := congrArg SdoWrite.index h
    dsimp only at hv
    omega
  · exact enable_not_mem_entryWrites rpdo_number cobid entries 1 (List.take_subset _ _ h)
  · have hv := hextra _ h
    dsimp only at hv
    omega

/-- The three header downloads followed by an initial segment of the mapping
entries form a prefix of the full planned sequence. -/
theorem parts_prefix_planned (rpdo_number cobid tx_type : ℕ)
    (entries : List (ℕ × ℕ × ℕ)) (m : ℕ) :
    ([⟨0x1400 + rpdo_number, 1, cobid ||| 0x80000000⟩,
      ⟨0x1400 + rpdo_number, 2, tx_type⟩,
      ⟨0x1600 + rpdo_number, 0, 0⟩] ++
        (entryWrites (0x1600 + rpdo_number) 1 entries).take m)
      <+: plannedWrites rpdo_number cobid tx_type entries := by
  have base : (entryWrites (0x1600 + rpdo_number) 1 entries).take m
      <+: entryWrites (0x1600 + rpdo_number) 1 entries ++
        [⟨0x1600 + rpdo_number, 0, entries.length⟩,
         ⟨0x1400 + rpdo_number, 1, cobid⟩] :=
    (List.take_prefix m _).trans (List.prefix_append _ _)
  simp only [plannedWrites, List.cons_append, List.nil_append]
  exact List.cons_prefix_cons.mpr ⟨rfl, List.cons_prefix_cons.mpr ⟨rfl,
    List.cons_prefix_cons.mpr ⟨rfl, base⟩⟩⟩

/-- C7: for every RPDO remap request (with a legal COB-ID, bit 31 clear):
with no aborts and at most 64 mapped bits the downloads issued are exactly the
six-step sequence (1) COB-ID with bit 31 set, (2) transmission type,
(3) mapping count zero, (4) each mapping entry `index<<16|subindex<<8|bits` in
field order, (5) the final count, (6) the COB-ID with bit 31 clear; and
whenever the remap fails (an SDO abort at any step, or cumulative bits over
64), the downloads issued form an initial segment of that sequence — no later
step is issued — and the re-enable download never took effect, leaving the
PDO disabled. -/
theorem C7_remap_sequence (rpdo_number cobid tx_type : ℕ)
    (entries : List (ℕ × ℕ × ℕ)) (aborts : ℕ → Bool) (hc : cobid < 2 ^ 31) :
    ((∀ k, aborts k = false) → bitsSum entries ≤ 64 →
      remap_rpdo rpdo_number cobid tx_type entries aborts
        = ⟨plannedWrites rpdo_number cobid tx_type entries,
           plannedWrites rpdo_number cobid tx_type entries, Except.ok ()⟩) ∧
    (∀ e : RemapErr,
      (remap_rpdo rpdo_number cobid tx_type entries aborts).result = Except.error e →
      (remap_rpdo rpdo_number cobid tx_type entries aborts).issued
          <+: plannedWrites rpdo_number cobid tx_type entries ∧
      (⟨0x1400 + rpdo_number, 1, cobid⟩ : SdoWrite)
          ∉ (remap_rpdo rpdo_number cobid tx_type entries aborts).applied) := by
  constructor
  · intro hab hbits
    simp only [remap_rpdo]
    rw [entryLoop_no_abort (0x1600 + rpdo_number) aborts hab entries 1 3 0 _ _ (by omega)]
    simp [hab, plannedWrites, List.append_assoc]
  · intro e herr
    by_cases h0 : aborts 0 = true
    · constructor
      · simp only [remap_rpdo, h0, if_true]
        exact ⟨_, rfl⟩
      · simp [remap_rpdo, h0]
    · simp only [Bool.not_eq_true] at h0
      by_cases h1 : aborts 1 = true
      · constructor
        · simp only [remap_rpdo, h0, h1, Bool.false_eq_true, if_false, if_true]
          exact ⟨_, rfl⟩
        · simp only [remap_rpdo, h0, h1, Bool.false_eq_true, if_false, if_true]
          intro hmem
          simp only [List.mem_cons, List.not_mem_nil, or_false] at hmem
          have hv := congrArg SdoWrite.value hmem
          dsimp only at hv
          exact disable_ne cobid hc hv.symm
      · simp only [Bool.not_eq_true] at h1
        by_cases h2 : aborts 2 = true
        · constructor
          · simp only [remap_rpdo, h0, h1, h2, Bool.false_eq_true, if_false, if_true]
            exact ⟨_, rfl⟩
          · simp only [remap_rpdo, h0, h1, h2, Bool.false_eq_true, if_false, if_true]
            intro hmem
            simp only [List.mem_cons, List.not_mem_nil, or_false] at hmem
            rcases hmem with h | h
            · have hv := congrArg SdoWrite.value h
              dsimp only at hv
              exact disable_ne cobid hc hv.symm
            · have hv := congrArg SdoWrite.subindex h
              dsimp only at hv
              omega
        · simp only [Bool.not_eq_true] at h2
          obtain ⟨m, n, hmn, hiss, happ, hok⟩ :=
            entryLoop_parts (0x1600 + rpdo_number) aborts entries 1 3 0
              [⟨0x1400 + rpdo_number, 1, cobid ||| 0x80000000⟩,
               ⟨0x1400 + rpdo_number, 2, tx_type⟩, ⟨0x1600 + rpdo_number, 0, 0⟩]
              [⟨0x1400 + rpdo_number, 1, cobid ||| 0x80000000⟩,
               ⟨0x1400 + rpdo_number, 2, tx_type⟩, ⟨0x1600 + rpdo_number, 0, 0⟩]
          rcases hl : entryLoop aborts (0x1600 + rpdo_number) entries 1 3 0
              [⟨0x1400 + rpdo_number, 1, cobid ||| 0x80000000⟩,
               ⟨0x1400 + rpdo_number, 2, tx_type⟩, ⟨0x1600 + rpdo_number, 0, 0⟩]
              [⟨0x1400 + rpdo_number, 1, cobid ||| 0x80000000⟩,
               ⟨0x1400 + rpdo_number, 2, tx_type⟩, ⟨0x1600 + rpdo_number, 0, 0⟩]
            with ⟨li, la, lk, lres⟩
          rw [hl] at hiss happ hok
          dsimp only at hiss happ hok
          cases lres with
          | error e2 =>
            have hrun : remap_rpdo rpdo_number cobid tx_type entries aborts
                = ⟨li, la, Except.error e2⟩ := by
              simp only [remap_rpdo, h0, h1, h2, Bool.false_eq_true, if_false, hl]
            rw [hrun]
            refine ⟨?_, ?_⟩
            · rw [hiss]
              exact parts_prefix_planned rpdo_number cobid tx_type entries m
            · rw [happ]
              have := enable_not_mem_parts rpdo_number cobid tx_type hc entries n []
                (by intro w hw; simp at hw)
              simpa using this
          | ok u =>
            obtain ⟨g1, g2⟩ := hok rfl
            by_cases h5 : aborts lk = true
            · have hrun : remap_rpdo rpdo_number cobid tx_type entries aborts
                  = ⟨li ++ [⟨0x1600 + rpdo_number, 0, entries.length⟩], la,
                     Except.error RemapErr.sdoAbort⟩ := by
                simp only [remap_rpdo, h0, h1, h2, Bool.false_eq_true, if_false, hl, h5,
                  if_true]
              rw [hrun]
              refine ⟨?_, ?_⟩
              · rw [g1]
                refine ⟨[⟨0x1400 + rpdo_number, 1, cobid⟩], ?_⟩
                simp [plannedWrites, List.append_assoc]
              · rw [g2]
                have := enable_not_mem_parts rpdo_number cobid tx_type hc entries
                  (entryWrites (0x1600 + rpdo_number) 1 entries).length []
                  (by intro w hw; simp at hw)
                simpa [List.take_length] using this
            · simp only [Bool.not_eq_true] at h5
              by_cases h6 : aborts (lk + 1) = true
              · have hrun : remap_rpdo rpdo_number cobid tx_type entries aborts
                    = ⟨li ++ [⟨0x1600 + rpdo_number, 0, entries.length⟩,
                              ⟨0x1400 + rpdo_number, 1, cobid⟩],
                       la ++ [⟨0x1600 + rpdo_number, 0, entries.length⟩],
                       Except.error RemapErr.sdoAbort⟩ := by
                  simp only [remap_rpdo, h0, h1, h2, h5, Bool.false_eq_true, if_false, hl,
                    h6, if_true]
                rw [hrun]
                refine ⟨?_, ?_⟩
                · rw [g1]
                  refine ⟨[], ?_⟩
                  simp [plannedWrites, List.append_assoc]
                · rw [g2]
                  have := enable_not_mem_parts rpdo_number cobid tx_type hc entries
                    (entryWrites (0x1600 + rpdo_number) 1 entries).length
                    [⟨0x1600 + rpdo_number, 0, entries.length⟩]
                    (by intro w hw; simp at hw; rw [hw])
                  simpa [List.take_length, List.append_assoc] using this
              · simp only [Bool.not_eq_true] at h6
                have hrun : (remap_rpdo rpdo_number cobid tx_type entries aborts).result
                    = Except.ok () := by
                  simp only [remap_rpdo, h0, h1, h2, h5, h6, Bool.false_eq_true, if_false,
                    hl]
                rw [hrun] at herr
                exact absurd herr (by simp)

/-- C7 (witness): the source RPDO1 remap (RPDO 0 at COB-ID 0x20A, type 0xFF,
64 mapped bits) against a device that aborts nothing issues exactly the
planned sequence. -/
theorem C7_remap_sequence_witness :
    (0x20A : ℕ) < 2 ^ 31 ∧ bitsSum RPDO1_ENTRIES ≤ 64 ∧
    remap_rpdo 0 0x20A 0xFF RPDO1_ENTRIES (fun _ => false)
      = ⟨plannedWrites 0 0x20A 0xFF RPDO1_ENTRIES,
         plannedWrites 0 0x20A 0xFF RPDO1_ENTRIES, Except.ok ()⟩ :=
  ⟨by norm_num, by decide,
    (C7_remap_sequence 0 0x20A 0xFF RPDO1_ENTRIES (fun _ => false)
      (by norm_num)).1 (fun _ => rfl) (by decide)⟩

/-! ## src/helper/deltaq_charger.py — heartbeat consumption

`ChargerController.process_received_message` decodes each received frame with
the DBC database and, for the charger heartbeat, compares the decoded state
name: a Pre-operational heartbeat while `self.nmt_started` is falsy (and not
`read_only`) sends NMT Start (`nmt_start_charger`); an Operational heartbeat
sets `self.nmt_started = True`. -/

/-- CANopen NMT state of the tracked charger node. -/
inductive NodeState where
  | Unknown
  | BootUp
  | Stopped
  | PreOperational
  | Operational
deriving DecidableEq

/-- Modelled from the spec: the DBC file that maps the heartbeat state byte to
a state name is referenced by path in the source but is not part of the source
tree; the spec table {0x00 BootUp, 0x04 Stopped, 0x05 Operational,
0x7F PreOperational} is used, which matches the inline table of
`monitor_charger_state` in deltaq_canopen.py.  A byte outside the table fails
to decode (the `except` clause drops the frame). -/
def decode_heartbeat_byte (b : ℕ) : Option NodeState :=
  if b = 0x00 then some NodeState.BootUp
  else if b = 0x04 then some NodeState.Stopped
  else if b = 0x05 then some NodeState.Operational
  else if b = 0x7F then some NodeState.PreOperational
  else none

/-- Observable controller state for heartbeat processing: the tracked decoded
state (the `current_state` entry for the heartbeat COB-ID), the `nmt_started`
flag and the number of NMT Start frames sent so far.  `nmt_started` is read
before it is ever assigned in the source (`__init__` never sets it — the first
Pre-operational heartbeat would raise `AttributeError`, an evident slip); it
is modelled as initialised to `False`, the only value on which the loop can
proceed at all. -/
structure HbState where
  tracked : NodeState
  nmt_started : Bool
  nmt_sends : ℕ
deriving DecidableEq

/-- Controller state at thread start: no heartbeat seen yet. -/
def hbInit : HbState :=
  { tracked := NodeState.Unknown, nmt_started := false, nmt_sends := 0 }

/-- One heartbeat frame through `process_received_message` (with
`read_only = False`): store the decoded state, then send NMT Start if the
state is Pre-operational and `nmt_started` is false, else record
`nmt_started = True` if the state is Operational.  Undecodable bytes leave
the state unchanged. -/
def process_heartbeat (st : HbState) (b : ℕ) : HbState :=
  match decode_heartbeat_byte b with
  | none => st
  | some s =>
    let st1 : HbState := { st with tracked := s }
    if s = NodeState.PreOperational ∧ st1.nmt_started = false then
      { st1 with nmt_sends := st1.nmt_sends + 1 }
    else if s = NodeState.Operational then
      { st1 with nmt_started := true }
    else st1

/-- A sequence of heartbeat frames, in order of receipt. -/
def process_heartbeats (st : HbState) : List ℕ → HbState
  | [] => st
  | b :: rest => process_heartbeats (process_heartbeat st b) rest

/-- Tracked state after each received heartbeat. -/
def trackedTrace (st : HbState) : List ℕ → List NodeState
  | [] => []
  | b :: rest =>
    (process_heartbeat st b).tracked :: trackedTrace (process_heartbeat st b) rest

/-- Following the claim: the number of transitions of the tracked state into
`PreOperational` along a heartbeat sequence (positions where the tracked state
becomes PreOperational having not been PreOperational before the frame). -/
def preOpEdges (st : HbState) : List ℕ → ℕ
  | [] => 0
  | b :: rest =>
    (if (process_heartbeat st b).tracked = NodeState.PreOperational ∧
        st.tracked ≠ NodeState.PreOperational then 1 else 0) +
      preOpEdges (process_heartbeat st b) rest

/-- Once `nmt_started` is set, no further heartbeat sends NMT Start. -/
theorem process_heartbeats_started :
    ∀ (bs : List ℕ) (st : HbState), st.nmt_started = true →
      (process_heartbeats st bs).nmt_sends = st.nmt_sends ∧
      (process_heartbeats st bs).nmt_started = true := by
  intro bs
  induction bs with
  | nil => intro st hst; exact ⟨rfl, hst⟩
  | cons b rest ih =>
    intro st hst
    have hstep : (process_heartbeat st b).nmt_sends = st.nmt_sends ∧
        (process_heartbeat st b).nmt_started = true := by
      unfold process_heartbeat
      cases hd : decode_heartbeat_byte b with
      | none => exact ⟨rfl, hst⟩
      | some s =>
        simp only [hst]
        split_ifs with hpre hop <;> simp_all
    rw [process_heartbeats]
    obtain ⟨e1, e2⟩ := hstep
    obtain ⟨f1, f2⟩ := ih (process_heartbeat st b) e2
    exact ⟨by rw [f1, e1], f2⟩

/-- Before an Operational heartbeat arrives, every Pre-operational heartbeat
sends NMT Start. -/
theorem process_heartbeats_sends :
    ∀ (bs : List ℕ) (st : HbState), st.nmt_started = false →
      (process_heartbeats st bs).nmt_sends
        = st.nmt_sends + ((bs.takeWhile fun b => b ≠ 0x05).filter fun b => b = 0x7F).length := by
  intro bs
  induction bs with
  | nil => intro st hst; simp [process_heartbeats]
  | cons b rest ih =>
    intro st hst
    rw [process_heartbeats]
    by_cases hb5 : b = 0x05
    · subst hb5
      have hstep : process_heartbeat st 0x05 = { st with tracked := NodeState.Operational, nmt_started := true } := by
        simp [process_heartbeat, decode_heartbeat_byte, hst]
      rw [hstep]
      obtain ⟨f1, _⟩ := process_heartbeats_started rest
        { st with tracked := NodeState.Operational, nmt_started := true } rfl
      rw [f1]
      simp [List.takeWhile_cons]
    · by_cases hb7 : b = 0x7F
      · subst hb7
        have hstep : process_heartbeat st 0x7F = { st with tracked := NodeState.PreOperational, nmt_sends := st.nmt_sends + 1 } := by
          simp [process_heartbeat, decode_heartbeat_byte, hst]
        rw [hstep, ih _ (by simp [hst])]
        have ht : ((0x7F : ℕ) :: rest).takeWhile (fun b => b ≠ 0x05)
            = 0x7F :: rest.takeWhile fun b => b ≠ 0x05 := by
          simp [List.takeWhile_cons]
        rw [ht]
        simp only [List.filter_cons]
        norm_num
        omega
      · have hkeep : (process_heartbeat st b).nmt_sends = st.nmt_sends ∧
            (process_heartbeat st b).nmt_started = false := by
          by_cases hb0 : b = 0x00
          · subst hb0
            constructor <;> simp [process_heartbeat, decode_heartbeat_byte, hst]
          · by_cases hb4 : b = 0x04
            · subst hb4
              constructor <;> simp [process_heartbeat, decode_heartbeat_byte, hst]
            · have hdn : decode_heartbeat_byte b = none := by
                simp [decode_heartbeat_byte, hb0, hb4, hb5, hb7]
              constructor <;> simp [process_heartbeat, hdn, hst]
        obtain ⟨e1, e2⟩ := hkeep
        rw [ih _ e2, e1]
        have ht : (b :: rest).takeWhile (fun b => b ≠ 0x05)
            = b :: rest.takeWhile fun b => b ≠ 0x05 := by
          simp [List.takeWhile_cons, hb5]
        rw [ht]
        simp [List.filter_cons, hb7]

/-- C8 (counterexample): two consecutive Pre-operational heartbeats form a
single edge into PreOperational, yet the controller sends NMT Start twice —
once per frame, not once per edge (sending does not mark NMT start as
issued; only an Operational heartbeat sets `nmt_started`). -/
theorem C8_counterexample :
    (process_heartbeats hbInit [0x7F, 0x7F]).nmt_sends = 2 ∧
    preOpEdges hbInit [0x7F, 0x7F] = 1 ∧ (2 : ℕ) ≠ 1 :=
  ⟨rfl, rfl, by omega⟩

/-- C8 (amended): with auto-bringup enabled (`read_only = False`), the
controller sends NMT Start on **every** Pre-operational heartbeat received
before the first Operational heartbeat (not once per edge); and the heartbeat
byte sequence `[0x00, 0x7F, 0x05]` drives the tracked state
Unknown→BootUp→PreOperational→Operational with exactly one NMT Start. -/
theorem C8_preop_sends (bs : List ℕ) :
    (process_heartbeats hbInit bs).nmt_sends
      = ((bs.takeWhile fun b => b ≠ 0x05).filter fun b => b = 0x7F).length ∧
    hbInit.tracked = NodeState.Unknown ∧
    trackedTrace hbInit [0x00, 0x7F, 0x05]
      = [NodeState.BootUp, NodeState.PreOperational, NodeState.Operational] ∧
    (process_heartbeats hbInit [0x00, 0x7F, 0x05]).nmt_sends = 1 :=
  ⟨by simpa [hbInit] using process_heartbeats_sends bs hbInit rfl, rfl, rfl, rfl⟩

/-! ## src/deltaq_canopen.py — send_rpdos -/

/-- Python `round`: nearest integer, ties to the even neighbour. -/
def pyRound (x : ℚ) : ℤ :=
  let n := ⌊x⌋
  let r := x - n
  if r < 1/2 then n
  else if 1/2 < r then n + 1
  else if n % 2 = 0 then n else n + 1

/-- `clamp(val, lo, hi) = max(lo, min(hi, val))`. -/
def clamp (val lo hi : ℤ) : ℤ := max lo (min hi val)

/-- `u16`: the two little-endian bytes of an unsigned 16-bit value. -/
def u16 (v : ℕ) : List ℕ := [v % 256, v / 256 % 256]

/-- The RPDO1 payload assembled by one iteration of `send_rpdos`, as a
function of the loop inputs and the current rolling counter.  Byte 0 is the
fixed reserved byte; byte 7 is `batt_status_u8`, computed from the counter
alone (0 when the counter is 0, else 1) — the `batt_status` argument of
`send_rpdos` is never read, exactly as in the source. -/
def rpdo1_data (soc vreq ireq cycle_type batt_status : ℚ) (counter : ℕ) : List ℕ :=
  let soc_u8 := (clamp (pyRound soc) 0 100).toNat
  let cycle_u8 := (clamp (pyRound cycle_type) 0 255).toNat
  let batt_status_u8 :=
    if counter = 0 then (clamp (pyRound 0) 0 255).toNat
    else (clamp (pyRound 1) 0 255).toNat
  let vreq_u16_256 := (clamp (pyRound (vreq * 256)) 0 0xFFFF).toNat
  let ireq_u16_16 := (clamp (pyRound (ireq * 16)) 0 0xFFFF).toNat
  [0, soc_u8, cycle_u8] ++ u16 vreq_u16_256 ++ u16 ireq_u16_16 ++ [batt_status_u8]

/-- The rolling counter read by the n-th transmission (0-based): it starts at
0 and the loop ends with `counter = (counter + 1) & 0xFF`. -/
def counterAt : ℕ → ℕ
  | 0 => 0
  | n + 1 => (counterAt n + 1) &&& 0xFF

/-- The RPDO1 payload of the n-th transmission of the `send_rpdos` loop. -/
def rpdo1_frame_at (soc vreq ireq cycle_type batt_status : ℚ) (n : ℕ) : List ℕ :=
  rpdo1_data soc vreq ireq cycle_type batt_status (counterAt n)

/-- The rolling counter is the transmission index modulo 256. -/
theorem counterAt_eq (n : ℕ) : counterAt n = n % 256 := by
  induction n with
  | zero => rfl
  | succ m ih =>
    rw [counterAt, ih]
    have h255 : (0xFF : ℕ) = 2 ^ 8 - 1 := by norm_num
    rw [h255, Nat.and_pow_two_sub_one_eq_mod]
    show (m % 256 + 1) % 256 = (m + 1) % 256
    omega

/-- C9: in the periodic RPDO1 sender, payload byte 7 (Battery_Status) of the
n-th transmitted 0x20A frame is 0 exactly when n is a multiple of 256 and 1
otherwise, for every choice of the caller-supplied arguments including
`batt_status`; the payload is always 8 bytes. -/
theorem C9_battery_status_byte (soc vreq ireq cycle_type batt_status : ℚ) (n : ℕ) :
    (rpdo1_frame_at soc vreq ireq cycle_type batt_status n).getD 7 0
      = (if n % 256 = 0 then 0 else 1) ∧
    (rpdo1_frame_at soc vreq ireq cycle_type batt_status n).length = 8 := by
  have h0 : (clamp (pyRound 0) 0 255).toNat = 0 := by norm_num [pyRound, clamp]
  have h1 : (clamp (pyRound 1) 0 255).toNat = 1 := by norm_num [pyRound, clamp]
  constructor
  · show (rpdo1_data soc vreq ireq cycle_type batt_status (counterAt n)).getD 7 0 = _
    rw [rpdo1_data, counterAt_eq]
    simp [u16, List.getD, h0, h1]
  · show (rpdo1_data soc vreq ireq cycle_type batt_status (counterAt n)).length = 8
    rw [rpdo1_data]
    simp [u16]

end CB550
